import Mathlib

/-! Verification development for the query-preparation and response-normalization
core of the doggo DNS lookup tool.

The definitions below are a shallow embedding of `pkg/resolvers/utils.go` and
`cmd/doggo/nameservers.go`, together with models of the external library
functions those files call: the name helpers of the miekg DNS library
(`IsFqdn`, `Fqdn`, `CountLabel`), the Go standard library URL parser
(`net/url.Parse` and the accessors used), and `net.JoinHostPort`.
Strings are modelled as `List Char`; Go byte-level operations coincide with
the character-level model on ASCII input, which is noted where it matters. -/

set_option autoImplicit false

namespace Doggo

/-! ### String helpers (fragments of Go `strings`) -/

/-- Whether the second list is a prefix of the first (Go `strings.HasPrefix s pat`). -/
def hasPfx : List Char → List Char → Bool
  | _, [] => true
  | [], _ :: _ => false
  | c :: cs, p :: ps => c == p && hasPfx cs ps

/-- Whether the second list is a suffix of the first (Go `strings.HasSuffix s pat`). -/
def hasSfx (s pat : List Char) : Bool :=
  hasPfx s.reverse pat.reverse

/-- Go `strings.Cut s sep` for a one-character separator: splits at the first
occurrence, returning (before, after, found). -/
def cutChar : List Char → Char → List Char × List Char × Bool
  | [], _ => ([], [], false)
  | c :: cs, sep =>
    if c == sep then ([], cs, true)
    else
      let r := cutChar cs sep
      (c :: r.1, r.2.1, r.2.2)

/-- Split at the last occurrence of a character (Go `strings.LastIndexByte` based
splitting): returns (before, after, found) where `after` holds no occurrence. -/
def cutLastChar (s : List Char) (sep : Char) : List Char × List Char × Bool :=
  let r := cutChar s.reverse sep
  if r.2.2 then (r.2.1.reverse, r.1.reverse, true) else (s, [], false)

/-! ### miekg DNS name helpers

Models of `dns.IsFqdn`, `dns.Fqdn` and `dns.CountLabel` from the miekg DNS
library, which `constructPossibleQuestions` delegates to. -/

/-- Core of `dns.IsFqdn` on the reversed name: the name ends in a dot and the
number of backslashes immediately before that dot is even (the dot is not
escaped). -/
def isFqdnRev : List Char → Bool
  | c :: rest => c == ('.') && (rest.takeWhile (fun b => b == ('\\'))).length % 2 == 0
  | [] => false

/-- Model of `dns.IsFqdn`: the name ends with an unescaped root dot. -/
def dnsIsFqdn (s : List Char) : Bool :=
  isFqdnRev s.reverse

/-- Model of `dns.Fqdn`: append the root dot unless the name is already fully
qualified. -/
def dnsFqdn (s : List Char) : List Char :=
  if dnsIsFqdn s then s else s ++ [('.')]

/-- Count the unescaped dots of a list of characters. The boolean state records
whether the number of consecutive backslashes immediately before the current
position is even (even means a dot here is unescaped). -/
def unescapedDots : List Char → Bool → Nat
  | [], _ => 0
  | c :: rest, evenBS =>
    if c == ('.') then (if evenBS then 1 else 0) + unescapedDots rest true
    else if c == ('\\') then unescapedDots rest (!evenBS)
    else unescapedDots rest true

/-- Model of `dns.CountLabel`: zero for the root name, otherwise one more than
the number of unescaped dots before the final position (a trailing root dot is
not counted, mirroring the `NextLabel` scan that stops before the last byte). -/
def dnsCountLabel (s : List Char) : Nat :=
  if s == [('.')] then 0 else 1 + unescapedDots s.dropLast true

/-! ### Query Name Expander (`constructPossibleQuestions`, utils.go lines 41 to 68) -/

/-- Embedding of `constructPossibleQuestions`: an already fully qualified name
is returned alone; otherwise the fully qualified bare name is tried before the
search-list expansions exactly when the label count exceeds ndots, and after
them otherwise. The loop over the search list is the fold appending
`dns.Fqdn(name + s)` for each suffix `s`. -/
def constructPossibleQuestions (name : List Char) (ndots : Int) (searchList : List (List Char)) :
    List (List Char) :=
  if dnsIsFqdn name then [name]
  else
    let hasNdots : Bool := (dnsCountLabel name : Int) > ndots
    let fq := dnsFqdn name
    let names : List (List Char) := []
    let names := if hasNdots then names ++ [fq] else names
    let names := searchList.foldl (fun ns s => ns ++ [dnsFqdn (fq ++ s)]) names
    let names := if !hasNdots then names ++ [fq] else names
    names

/-! ### Numeric rendering (Go `strconv`) -/

/-- Base-10 rendering of a natural number (Go `strconv.Itoa` and
`strconv.FormatInt` on non-negative values). -/
def natToStr (n : Nat) : List Char :=
  Nat.toDigits 10 n

/-- Base-10 rendering of an integer (Go `fmt %d` and `strconv.FormatInt`). -/
def intToStr : Int → List Char
  | .ofNat n => natToStr n
  | .negSucc n => ('-') :: natToStr (n + 1)

/-- Model of Go `time.Duration.Milliseconds`: nanoseconds divided by one
million, truncated toward zero. -/
def durationMilliseconds (ns : Int) : Int :=
  Int.tdiv ns 1000000

/-! ### DNS message model (the fragment of miekg `dns.Msg` that the code reads) -/

/-- A DNS question: name, query type and query class. -/
structure DnsQuestion where
  name : List Char
  qtype : Nat
  qclass : Nat
deriving DecidableEq

/-- The resource record header fields read through `Header()`. -/
structure RRHeader where
  name : List Char
  rrtype : Nat
  rrClass : Nat
  ttl : Nat
deriving DecidableEq

/-- The resource record variants distinguished by the type switch in
`parseMessage`, plus a catch-all `over` constructor for every other record
type. `A` and `AAAA` carry the textual rendering of their IP address (the
output of `net.IP.String`, external to this repository); `TXT`, `SOA` and
`NAPTR` carry the record's native library text rendering (the output of the
record's `String()` method, also external) as the `native` field. -/
inductive DnsRR where
  | a (hdr : RRHeader) (ipText : List Char)
  | aaaa (hdr : RRHeader) (ipText : List Char)
  | cname (hdr : RRHeader) (target : List Char)
  | caa (hdr : RRHeader) (tag : List Char) (value : List Char)
  | hinfo (hdr : RRHeader) (cpu : List Char) (os : List Char)
  | ptr (hdr : RRHeader) (ptrName : List Char)
  | srv (hdr : RRHeader) (priority : Nat) (weight : Nat) (port : Nat) (target : List Char)
  | txt (hdr : RRHeader) (native : List Char)
  | ns (hdr : RRHeader) (nsName : List Char)
  | mx (hdr : RRHeader) (preference : Nat) (mxName : List Char)
  | soa (hdr : RRHeader) (nsName : List Char) (mbox : List Char)
      (serial : Nat) (refresh : Nat) (retry : Nat) (expire : Nat) (minttl : Nat)
      (native : List Char)
  | naptr (hdr : RRHeader) (native : List Char)
  | over (hdr : RRHeader)
deriving DecidableEq

/-- The header of a record (Go `RR.Header()`). -/
def DnsRR.header : DnsRR → RRHeader
  | .a hdr _ => hdr
  | .aaaa hdr _ => hdr
  | .cname hdr _ => hdr
  | .caa hdr _ _ => hdr
  | .hinfo hdr _ _ => hdr
  | .ptr hdr _ => hdr
  | .srv hdr _ _ _ _ => hdr
  | .txt hdr _ => hdr
  | .ns hdr _ => hdr
  | .mx hdr _ _ => hdr
  | .soa hdr _ _ _ _ _ _ _ _ => hdr
  | .naptr hdr _ => hdr
  | .over hdr => hdr

/-- The fragment of miekg `dns.Msg` the code reads and writes: transaction id,
recursion-desired flag, question, answer and authority sections, and the
response code. The authority section field is named `Ns` in Go. -/
structure DnsMsg where
  id : Nat
  recursionDesired : Bool
  question : List DnsQuestion
  answer : List DnsRR
  nsSection : List DnsRR
  rcode : Nat
deriving DecidableEq

/-- Model of the miekg `RcodeToString` map: the textual name of a response
code, empty for codes outside the map (a Go map lookup yields the zero
value). -/
def rcodeToString : Nat → List Char
  | 0 => (("NOERROR").toList)
  | 1 => (("FORMERR").toList)
  | 2 => (("SERVFAIL").toList)
  | 3 => (("NXDOMAIN").toList)
  | 4 => (("NOTIMP").toList)
  | 5 => (("REFUSED").toList)
  | 6 => (("YXDOMAIN").toList)
  | 7 => (("YXRRSET").toList)
  | 8 => (("NXRRSET").toList)
  | 9 => (("NOTAUTH").toList)
  | 10 => (("NOTZONE").toList)
  | 16 => (("BADSIG").toList)
  | 17 => (("BADKEY").toList)
  | 18 => (("BADTIME").toList)
  | 19 => (("BADMODE").toList)
  | 20 => (("BADNAME").toList)
  | 21 => (("BADALG").toList)
  | 22 => (("BADTRUNC").toList)
  | 23 => (("BADCOOKIE").toList)
  | _ => []

/-- Model of miekg `dns.Class.String`: the class mnemonic, with the generic
`CLASS` plus number fallback. -/
def classToString (c : Nat) : List Char :=
  match c with
  | 1 => (("IN").toList)
  | 2 => (("CS").toList)
  | 3 => (("CH").toList)
  | 4 => (("HS").toList)
  | 254 => (("NONE").toList)
  | 255 => (("ANY").toList)
  | _ => (("CLASS").toList) ++ natToStr c

/-- Model of miekg `dns.Type.String` on the record types this development
manipulates: the type mnemonic, with the generic `TYPE` plus number
fallback. -/
def typeToString (t : Nat) : List Char :=
  match t with
  | 1 => (("A").toList)
  | 2 => (("NS").toList)
  | 5 => (("CNAME").toList)
  | 6 => (("SOA").toList)
  | 12 => (("PTR").toList)
  | 13 => (("HINFO").toList)
  | 15 => (("MX").toList)
  | 16 => (("TXT").toList)
  | 28 => (("AAAA").toList)
  | 33 => (("SRV").toList)
  | 35 => (("NAPTR").toList)
  | 255 => (("ANY").toList)
  | 257 => (("CAA").toList)
  | _ => (("TYPE").toList) ++ natToStr t

/-! ### Message Builder (`prepareMessages`, utils.go lines 13 to 34) -/

/-- Embedding of `prepareMessages`. The library call `dns.Id()` draws a fresh
random 16-bit transaction id on every loop iteration; the randomness source is
modelled as the injected stream `ids`, whose value at index `i` is the draw
made for the i-th message. -/
def prepareMessages (q : DnsQuestion) (ndots : Int) (searchList : List (List Char))
    (ids : Nat → Nat) : List DnsMsg :=
  let possibleQNames := constructPossibleQuestions q.name ndots searchList
  (possibleQNames.foldl
    (fun (acc : Nat × List DnsMsg) qName =>
      (acc.1 + 1, acc.2 ++
        [{ id := ids acc.1
           recursionDesired := true
           question := [{ name := qName, qtype := q.qtype, qclass := q.qclass }]
           answer := []
           nsSection := []
           rcode := 0 }]))
    (0, [])).2

/-! ### Response Normalizer (`parseMessage`, utils.go lines 72 to 156) -/

/-- The normalized answer record built by `parseMessage` (the Go struct fields
Name, Type, TTL, Class, Address, RTT, Nameserver). -/
structure Answer where
  name : List Char
  rtype : List Char
  ttl : List Char
  rclass : List Char
  address : List Char
  rtt : List Char
  nameserver : List Char
deriving DecidableEq

/-- The normalized authority record built by `parseMessage` (the Go struct
fields Name, Type, TTL, Class, MName, Nameserver, RTT, Status). -/
structure Authority where
  name : List Char
  rtype : List Char
  ttl : List Char
  rclass : List Char
  mname : List Char
  nameserver : List Char
  rtt : List Char
  status : List Char
deriving DecidableEq

/-- The normalized response accumulated by `parseMessage`. -/
structure Response where
  answers : List Answer
  authorities : List Authority
deriving DecidableEq

/-- Body of the authority-section loop of `parseMessage`: a SOA record appends
one Authority whose mname is the space-joined composite of the SOA fields;
every other record is skipped. -/
def parseAuthorityStep (rcode : Nat) (timeTaken server : List Char)
    (resp : Response) (rr : DnsRR) : Response :=
  match rr with
  | .soa hdr soaNs mbox serial refresh retry expire minttl _ =>
    let mname := soaNs ++ [(' ')] ++ mbox
      ++ [(' ')] ++ natToStr serial
      ++ [(' ')] ++ natToStr refresh
      ++ [(' ')] ++ natToStr retry
      ++ [(' ')] ++ natToStr expire
      ++ [(' ')] ++ natToStr minttl
    { resp with authorities := resp.authorities ++
        [{ name := hdr.name
           rtype := typeToString hdr.rrtype
           ttl := natToStr hdr.ttl ++ [('s')]
           rclass := classToString hdr.rrClass
           mname := mname
           nameserver := server
           rtt := timeTaken
           status := rcodeToString rcode }] }
  | _ => resp

/-- Body of the answer-section loop of `parseMessage`: the type switch renders
the protocol-specific address (empty for records outside the switch), and one
Answer is appended for the record. -/
def parseAnswerStep (timeTaken server : List Char) (resp : Response) (rr : DnsRR) : Response :=
  let addr : List Char :=
    match rr with
    | .a _ ipText => ipText
    | .aaaa _ ipText => ipText
    | .cname _ target => target
    | .caa _ tag value => tag ++ [(' ')] ++ value
    | .hinfo _ cpu os => cpu ++ [(' ')] ++ os
    | .ptr _ ptrName => ptrName
    | .srv _ priority weight port target =>
      natToStr priority ++ [(' ')] ++ natToStr weight ++ [(' ')] ++ target ++ [(':')] ++ natToStr port
    | .txt _ native => native
    | .ns _ nsName => nsName
    | .mx _ preference mxName => natToStr preference ++ [(' ')] ++ mxName
    | .soa _ _ _ _ _ _ _ _ native => native
    | .naptr _ native => native
    | .over _ => []
  let h := rr.header
  { resp with answers := resp.answers ++
      [{ name := h.name
         rtype := typeToString h.rrtype
         ttl := natToStr h.ttl ++ [('s')]
         rclass := classToString h.rrClass
         address := addr
         rtt := timeTaken
         nameserver := server }] }

/-- Embedding of `parseMessage`: renders the round-trip time in milliseconds
with the `ms` suffix, then walks the authority section and the answer section
in order, appending normalized records. The round-trip time parameter is the
Go `time.Duration` in nanoseconds. -/
def parseMessage (msg : DnsMsg) (rttNs : Int) (server : List Char) : Response :=
  let timeTaken := intToStr (durationMilliseconds rttNs) ++ (("ms").toList)
  let resp : Response := ⟨[], []⟩
  let resp := msg.nsSection.foldl (parseAuthorityStep msg.rcode timeTaken server) resp
  msg.answer.foldl (parseAnswerStep timeTaken server) resp

/-! ### Model of the Go standard library URL parser (`net/url`)

The endpoint classifier `initNameserver` delegates to `url.Parse` and the
accessors `Scheme`, `Hostname`, `Port` and `String`. The following definitions
model the fragment of `net/url` those calls exercise: scheme detection, scheme
lowercasing, the query and fragment cuts, opaque URLs, the colon-in-first-path-
segment error, authority splitting with userinfo, host validation with percent
unescaping, path handling, and re-serialization. Go operates on bytes; this
model operates on characters, which coincides on ASCII input (non-ASCII
percent-escaping is modelled per code point). Error values are opaque to the
code under verification, so error messages are abbreviated. -/

def isAsciiLetter (c : Char) : Bool :=
  (('a') ≤ c && c ≤ ('z')) || (('A') ≤ c && c ≤ ('Z'))

def isAsciiDigit (c : Char) : Bool :=
  ('0') ≤ c && c ≤ ('9')

def isHexC (c : Char) : Bool :=
  isAsciiDigit c || (('a') ≤ c && c ≤ ('f')) || (('A') ≤ c && c ≤ ('F'))

def unhex (c : Char) : Nat :=
  if isAsciiDigit c then c.toNat - ('0').toNat
  else if ('a') ≤ c && c ≤ ('f') then c.toNat - ('a').toNat + 10
  else if ('A') ≤ c && c ≤ ('F') then c.toNat - ('A').toNat + 10
  else 0

def upperHexDigit (n : Nat) : Char :=
  ((("0123456789ABCDEF").toList)).getD n ('0')

/-- Go `stringContainsCTLByte`: whether the string holds an ASCII control
character. -/
def containsCTL (s : List Char) : Bool :=
  s.any (fun c => c.toNat < 32 || c.toNat == 127)

/-- ASCII lowering of a scheme (Go `strings.ToLower`; schemes are ASCII by
construction of `getScheme`). -/
def toLowerList (s : List Char) : List Char :=
  s.map Char.toLower

/-- The escaping modes of `net/url`. -/
inductive EncMode where
  | host
  | zone
  | path
  | pathSegment
  | userPassword
  | queryComponent
  | fragment
deriving DecidableEq

/-- Model of `net/url.shouldEscape`: whether a character must be
percent-escaped in the given mode. -/
def shouldEscape (c : Char) (mode : EncMode) : Bool :=
  if isAsciiLetter c || isAsciiDigit c then false
  else if (mode == .host || mode == .zone) &&
      (c == ('!') || c == ('$') || c == ('&') || c == ('\'') || c == ('(') || c == (')')
        || c == ('*') || c == ('+') || c == (',') || c == (';') || c == ('=') || c == (':')
        || c == ('[') || c == (']') || c == ('<') || c == ('>') || c == ('"')) then false
  else if c == ('-') || c == ('_') || c == ('.') || c == ('~') then false
  else if c == ('$') || c == ('&') || c == ('+') || c == (',') || c == ('/') || c == (':')
      || c == (';') || c == ('=') || c == ('?') || c == ('@') then
    match mode with
    | .path => c == ('?')
    | .pathSegment => c == ('/') || c == (';') || c == (',') || c == ('?')
    | .userPassword => c == ('@') || c == ('/') || c == ('?') || c == (':')
    | .queryComponent => true
    | .fragment => false
    | .host => true
    | .zone => true
  else if mode == .fragment &&
      (c == ('!') || c == ('(') || c == (')') || c == ('*')) then false
  else true

/-- Model of `net/url.escape`. -/
def escapeGo (s : List Char) (mode : EncMode) : List Char :=
  (s.map (fun c =>
    if c == (' ') && mode == .queryComponent then [('+')]
    else if shouldEscape c mode then
      [('%'), upperHexDigit (c.toNat / 16 % 16), upperHexDigit (c.toNat % 16)]
    else [c])).flatten

/-- Model of `net/url.unescape`: percent-decoding with the mode-specific
validity checks (malformed escapes are rejected; in host mode an escape of an
ASCII byte below 0x80 other than `%25` is rejected, and a bare character that
would need escaping is rejected). -/
def unescapeGo : List Char → EncMode → Except (List Char) (List Char)
  | [], _ => .ok []
  | c :: rest, mode =>
    if c == ('%') then
      match rest with
      | h1 :: h2 :: rest2 =>
        if !(isHexC h1 && isHexC h2) then .error ((("invalid URL escape").toList))
        else if mode == .host && unhex h1 < 8 && !(h1 == ('2') && h2 == ('5')) then
          .error ((("invalid URL escape").toList))
        else if mode == .zone && !(h1 == ('2') && h2 == ('5'))
            && !(unhex h1 * 16 + unhex h2 == 32)
            && shouldEscape (Char.ofNat (unhex h1 * 16 + unhex h2)) .host then
          .error ((("invalid URL escape").toList))
        else
          match unescapeGo rest2 mode with
          | .error e => .error e
          | .ok r => .ok (Char.ofNat (unhex h1 * 16 + unhex h2) :: r)
      | _ => .error ((("invalid URL escape").toList))
    else if c == ('+') then
      match unescapeGo rest mode with
      | .error e => .error e
      | .ok r => .ok ((if mode == .queryComponent then (' ') else ('+')) :: r)
    else
      if (mode == .host || mode == .zone) && c.toNat < 128 && shouldEscape c mode then
        .error ((("invalid character in host name").toList))
      else
        match unescapeGo rest mode with
        | .error e => .error e
        | .ok r => .ok (c :: r)

/-- Model of `net/url.validEncoded`. -/
def validEncoded (s : List Char) (mode : EncMode) : Bool :=
  s.all (fun c =>
    if c == ('!') || c == ('$') || c == ('&') || c == ('\'') || c == ('(') || c == (')')
      || c == ('*') || c == ('+') || c == (',') || c == (';') || c == ('=') || c == (':')
      || c == ('@') || c == ('[') || c == (']') || c == ('%') then true
    else !shouldEscape c mode)

/-- Model of `net/url.validOptionalPort`: empty, or a colon followed by
decimal digits only. -/
def validOptionalPort : List Char → Bool
  | [] => true
  | c :: rest => c == (':') && rest.all (fun b => ('0') ≤ b && b ≤ ('9'))

/-- Model of `net/url.validUserinfo`. -/
def validUserinfo (s : List Char) : Bool :=
  s.all (fun r =>
    isAsciiLetter r || isAsciiDigit r ||
    r == ('-') || r == ('.') || r == ('_') || r == (':') || r == ('~') || r == ('!')
      || r == ('$') || r == ('&') || r == ('\'') || r == ('(') || r == (')') || r == ('*')
      || r == ('+') || r == (',') || r == (';') || r == ('=') || r == ('%') || r == ('@'))

/-- Loop of `net/url.getScheme`: a scheme is a leading letter followed by
letters, digits, plus, minus or dot, terminated by a colon. A leading colon is
the missing-protocol-scheme error; a leading digit or any other character means
the whole string is kept with no scheme. -/
def getSchemeLoop (raw : List Char) : List Char → List Char → Bool →
    Except (List Char) (List Char × List Char)
  | [], _, _ => .ok ([], raw)
  | c :: rest, acc, atStart =>
    if isAsciiLetter c then getSchemeLoop raw rest (acc ++ [c]) false
    else if isAsciiDigit c || c == ('+') || c == ('-') || c == ('.') then
      if atStart then .ok ([], raw) else getSchemeLoop raw rest (acc ++ [c]) false
    else if c == (':') then
      if atStart then .error ((("missing protocol scheme").toList))
      else .ok (acc, rest)
    else .ok ([], raw)

/-- Model of `net/url.getScheme`. -/
def getScheme (raw : List Char) : Except (List Char) (List Char × List Char) :=
  getSchemeLoop raw raw [] true

/-- Index of the first occurrence of a pattern (Go `strings.Index`). -/
def idxOfSub (pat : List Char) : List Char → Option Nat
  | [] => if hasPfx [] pat then some 0 else none
  | s@(_ :: rest) => if hasPfx s pat then some 0 else (idxOfSub pat rest).map (fun i => i + 1)

/-- The userinfo of a URL (Go `url.Userinfo`): a username and an optional
password, stored percent-decoded. -/
structure Userinfo where
  username : List Char
  password : Option (List Char)
deriving DecidableEq

/-- Model of `net/url.parseHost`: bracketed IP literals with optional zone,
port validity checking, and host unescaping with host-mode validation. -/
def parseHostGo (host : List Char) : Except (List Char) (List Char) :=
  if hasPfx host [('[')] then
    match cutLastChar host (']') with
    | (_, _, false) => .error ((("missing ']' in host").toList))
    | (before, after, true) =>
      let i := before.length
      if !validOptionalPort after then .error ((("invalid port after host").toList))
      else
        match idxOfSub ((("%25").toList)) (host.take i) with
        | some zone =>
          match unescapeGo (host.take zone) .host with
          | .error e => .error e
          | .ok host1 =>
            match unescapeGo ((host.take i).drop zone) .zone with
            | .error e => .error e
            | .ok host2 =>
              match unescapeGo (host.drop i) .host with
              | .error e => .error e
              | .ok host3 => .ok (host1 ++ host2 ++ host3)
        | none => unescapeGo host .host
  else
    match cutLastChar host (':') with
    | (_, after, true) =>
      if !validOptionalPort ((':') :: after) then
        .error ((("invalid port after host").toList))
      else unescapeGo host .host
    | (_, _, false) => unescapeGo host .host

/-- Model of `net/url.parseAuthority`: split at the last `@`, parse the host,
then validate and decode the userinfo. -/
def parseAuthorityGo (authority : List Char) :
    Except (List Char) (Option Userinfo × List Char) :=
  match cutLastChar authority ('@') with
  | (userinfo, hostRaw, true) =>
    match parseHostGo hostRaw with
    | .error e => .error e
    | .ok host =>
      if !validUserinfo userinfo then .error ((("net/url: invalid userinfo").toList))
      else
        match cutChar userinfo (':') with
        | (_, _, false) =>
          match unescapeGo userinfo .userPassword with
          | .error e => .error e
          | .ok un => .ok (some ⟨un, none⟩, host)
        | (unRaw, pwRaw, true) =>
          match unescapeGo unRaw .userPassword, unescapeGo pwRaw .userPassword with
          | .ok un, .ok pw => .ok (some ⟨un, some pw⟩, host)
          | .error e, _ => .error e
          | .ok _, .error e => .error e
  | (_, _, false) =>
    match parseHostGo authority with
    | .error e => .error e
    | .ok host => .ok (none, host)

/-- The fields of Go `url.URL` that this development reads. The Go field
`Opaque` is named `opq` here. -/
structure GoURL where
  scheme : List Char
  opq : List Char
  user : Option Userinfo
  host : List Char
  path : List Char
  rawPath : List Char
  omitHost : Bool
  forceQuery : Bool
  rawQuery : List Char
  fragment : List Char
  rawFragment : List Char
deriving DecidableEq

def GoURL.empty : GoURL :=
  ⟨[], [], none, [], [], [], false, false, [], [], []⟩

/-- Model of `url.URL.setPath`: store the decoded path, and keep the raw form
exactly when the default re-encoding differs from it. -/
def setPathGo (p : List Char) : Except (List Char) (List Char × List Char) :=
  match unescapeGo p .path with
  | .error e => .error e
  | .ok path => .ok (path, if escapeGo path .path == p then [] else p)

/-- Model of `url.URL.setFragment`. -/
def setFragGo (f : List Char) : Except (List Char) (List Char × List Char) :=
  match unescapeGo f .fragment with
  | .error e => .error e
  | .ok frag => .ok (frag, if escapeGo frag .fragment == f then [] else f)

/-- Model of `url.URL.EscapedPath`. -/
def escapedPathGo (u : GoURL) : List Char :=
  if u.rawPath != [] && validEncoded u.rawPath .path &&
      (match unescapeGo u.rawPath .path with
       | .ok p => p == u.path
       | .error _ => false) then u.rawPath
  else if u.path == [('*')] then [('*')]
  else escapeGo u.path .path

/-- Model of `url.URL.EscapedFragment`. -/
def escapedFragmentGo (u : GoURL) : List Char :=
  if u.rawFragment != [] && validEncoded u.rawFragment .fragment &&
      (match unescapeGo u.rawFragment .fragment with
       | .ok f => f == u.fragment
       | .error _ => false) then u.rawFragment
  else escapeGo u.fragment .fragment

/-- Model of `url.Userinfo.String`. -/
def userinfoString (ui : Userinfo) : List Char :=
  escapeGo ui.username .userPassword ++
    (match ui.password with
     | some pw => [(':')] ++ escapeGo pw .userPassword
     | none => [])

/-- Model of `url.URL.String`: scheme and colon, then the opaque part or the
authority and escaped path, then the raw query and the escaped fragment. -/
def urlString (u : GoURL) : List Char :=
  let pre := if u.scheme != [] then u.scheme ++ [(':')] else []
  let core :=
    if u.opq != [] then u.opq
    else
      let auth :=
        if u.scheme != [] || u.host != [] || u.user.isSome then
          if u.omitHost && u.host == [] && u.user == none then []
          else
            (if u.host != [] || u.path != [] || u.user.isSome then [('/'), ('/')] else []) ++
            (match u.user with
             | some ui => userinfoString ui ++ [('@')]
             | none => []) ++
            (if u.host != [] then escapeGo u.host .host else [])
        else []
      let path := escapedPathGo u
      let slash := if path != [] && !hasPfx path [('/')] && u.host != [] then [('/')] else []
      let dotSlash :=
        if pre ++ auth ++ slash == [] && ((cutChar path ('/')).1).contains (':') then
          (("./").toList)
        else []
      auth ++ slash ++ dotSlash ++ path
  let q := if u.forceQuery || u.rawQuery != [] then [('?')] ++ u.rawQuery else []
  let f := if u.fragment != [] then [('#')] ++ escapedFragmentGo u else []
  pre ++ core ++ q ++ f

/-- Authority and path handling shared by the tail of `net/url.parse`: consume
a leading `//` authority when present, otherwise record an omitted host for a
rooted path under a scheme, then set the path. -/
def finishParse (scheme rest rawQuery : List Char) (forceQuery : Bool) :
    Except (List Char) GoURL :=
  if hasPfx rest [('/'), ('/')] then
    let rest2 := rest.drop 2
    let ar :=
      match cutChar rest2 ('/') with
      | (before, after, true) => (before, ('/') :: after)
      | (before, _, false) => (before, [])
    match parseAuthorityGo ar.1 with
    | .error e => .error e
    | .ok (user, host) =>
      match setPathGo ar.2 with
      | .error e => .error e
      | .ok (path, rawPath) =>
        .ok { GoURL.empty with
              scheme := scheme, user := user, host := host, path := path,
              rawPath := rawPath, rawQuery := rawQuery, forceQuery := forceQuery }
  else
    let omitHost := scheme != [] && hasPfx rest [('/')]
    match setPathGo rest with
    | .error e => .error e
    | .ok (path, rawPath) =>
      .ok { GoURL.empty with
            scheme := scheme, omitHost := omitHost, path := path,
            rawPath := rawPath, rawQuery := rawQuery, forceQuery := forceQuery }

/-- Model of `net/url.parse` with `viaRequest = false` (the fragment is cut
off by the caller): control-character check, the `*` special case, scheme
splitting and lowercasing, the query cut, opaque URLs, the
colon-in-first-path-segment error, then authority and path. -/
def urlParseNoFrag (rawURL : List Char) : Except (List Char) GoURL :=
  if containsCTL rawURL then
    .error ((("net/url: invalid control character in URL").toList))
  else if rawURL == [('*')] then .ok { GoURL.empty with path := [('*')] }
  else
    match getScheme rawURL with
    | .error e => .error e
    | .ok (scheme0, rest0) =>
      let scheme := toLowerList scheme0
      let rqf :=
        if hasSfx rest0 [('?')] && !(rest0.dropLast.contains ('?')) then
          (rest0.dropLast, ([] : List Char), true)
        else
          let c := cutChar rest0 ('?')
          (c.1, c.2.1, false)
      let rest1 := rqf.1
      let rawQuery := rqf.2.1
      let forceQuery := rqf.2.2
      if !hasPfx rest1 [('/')] then
        if scheme != [] then
          .ok { GoURL.empty with
                scheme := scheme, opq := rest1, rawQuery := rawQuery,
                forceQuery := forceQuery }
        else if ((cutChar rest1 ('/')).1).contains (':') then
          .error ((("first path segment in URL cannot contain colon").toList))
        else
          finishParse scheme rest1 rawQuery forceQuery
      else
        finishParse scheme rest1 rawQuery forceQuery

/-- Model of `net/url.Parse`: cut the fragment, parse the rest, then decode
the fragment when present. -/
def urlParseGo (rawURL : List Char) : Except (List Char) GoURL :=
  let c := cutChar rawURL ('#')
  match urlParseNoFrag c.1 with
  | .error e => .error e
  | .ok url =>
    if c.2.1 == [] then .ok url
    else
      match setFragGo c.2.1 with
      | .error e => .error e
      | .ok (fragment, rawFragment) =>
        .ok { url with fragment := fragment, rawFragment := rawFragment }

/-- Model of `net/url.splitHostPort`: strip a valid numeric port after the
last colon, then strip surrounding brackets. -/
def splitHostPortGo (hostPort : List Char) : List Char × List Char :=
  let hp :=
    match cutLastChar hostPort (':') with
    | (before, after, true) =>
      if validOptionalPort ((':') :: after) then (before, after) else (hostPort, [])
    | (_, _, false) => (hostPort, [])
  if hasPfx hp.1 [('[')] && hasSfx hp.1 [(']')] then ((hp.1.drop 1).dropLast, hp.2) else hp

/-- Model of `url.URL.Hostname`. -/
def GoURL.hostname (u : GoURL) : List Char :=
  (splitHostPortGo u.host).1

/-- Model of `url.URL.port`. -/
def GoURL.port (u : GoURL) : List Char :=
  (splitHostPortGo u.host).2

/-- Model of `net.JoinHostPort`: bracket the host when it holds a colon. -/
def joinHostPort (host port : List Char) : List Char :=
  if host.contains (':') then [('[')] ++ host ++ [(']'), (':')] ++ port
  else host ++ [(':')] ++ port

/-! ### Endpoint Classifier and Nameserver Loader (`cmd/doggo/nameservers.go`) -/

def DefaultTLSPort : List Char := (("853").toList)
def DefaultUDPPort : List Char := (("53").toList)
def DefaultTCPPort : List Char := (("53").toList)
def UDPResolver : List Char := (("udp").toList)
def DOHResolver : List Char := (("doh").toList)
def TCPResolver : List Char := (("tcp").toList)
def DOTResolver : List Char := (("dot").toList)

/-- A classified nameserver endpoint (the Go struct fields Type and Address;
the Go field `Type` is named `nsType` here). -/
structure Nameserver where
  nsType : List Char
  address : List Char
deriving DecidableEq

/-- Embedding of `initNameserver` (nameservers.go lines 73 to 112): start from
the UDP default with the whole input joined to port 53, parse the input as a
URL (returning the default endpoint together with the error on parse failure),
then adjust protocol type and address per scheme with the scheme-specific
default ports; the https branch keeps the re-serialized URL as the address. -/
def initNameserver (n : List Char) : Nameserver × Option (List Char) :=
  let ns : Nameserver := { nsType := UDPResolver, address := joinHostPort n DefaultUDPPort }
  match urlParseGo n with
  | .error e => (ns, some e)
  | .ok u =>
    let ns := if u.scheme == (("https").toList) then
        { nsType := DOHResolver, address := urlString u } else ns
    let ns := if u.scheme == (("tls").toList) then
        { nsType := DOTResolver
          address := if u.port == [] then joinHostPort u.hostname DefaultTLSPort
                     else joinHostPort u.hostname u.port } else ns
    let ns := if u.scheme == (("tcp").toList) then
        { nsType := TCPResolver
          address := if u.port == [] then joinHostPort u.hostname DefaultTCPPort
                     else joinHostPort u.hostname u.port } else ns
    let ns := if u.scheme == (("udp").toList) then
        { nsType := UDPResolver
          address := if u.port == [] then joinHostPort u.hostname DefaultUDPPort
                     else joinHostPort u.hostname u.port } else ns
    (ns, none)

/-- The user-supplied query flags read by the loader. -/
structure QueryFlags where
  nameservers : List (List Char)
  ndots : Int
  useSearchList : Bool
deriving DecidableEq

/-- The effective resolver options of the hub. -/
structure ResolverOptions where
  ndots : Int
  searchList : List (List Char)
deriving DecidableEq

/-- The fields of the Hub that `loadNameservers` reads and writes. -/
structure Hub where
  queryFlags : QueryFlags
  nameservers : List Nameserver
  resolverOpts : ResolverOptions
deriving DecidableEq

/-- Outcome of `config.GetDefaultServers` (the external System Defaults
Provider): failure, or a triple of nameserver address strings, an ndots value
and a search-domain list. The loader is verified for every outcome. -/
abbrev SysOutcome := Except Unit (List (List Char) × Int × List (List Char))

/-- Embedding of `getDefaultServers` (nameservers.go lines 57 to 71): wrap each
system-provided address as a UDP endpoint on the default port. -/
def getDefaultServers (sys : SysOutcome) :
    Except Unit (List Nameserver × Int × List (List Char)) :=
  match sys with
  | .error e => .error e
  | .ok (dnsServers, ndots, search) =>
    .ok (dnsServers.map (fun s =>
          { nsType := UDPResolver, address := joinHostPort s DefaultUDPPort }),
         ndots, search)

/-- The loop over user-supplied nameserver strings in `loadNameservers`
(nameservers.go lines 27 to 36), with the accumulated endpoint list made
explicit: a parse failure returns the error naming the offending string
immediately, a parsed endpoint is appended when its address and type are both
non-empty. -/
def loadUserNameservers : List Nameserver → List (List Char) →
    Except (List Char) (List Nameserver)
  | acc, [] => .ok acc
  | acc, srv :: rest =>
    match initNameserver srv with
    | (_, some _) => .error (((("error parsing nameserver: ").toList)) ++ srv)
    | (ns, none) =>
      loadUserNameservers
        (if ns.address != [] && ns.nsType != [] then acc ++ [ns] else acc) rest

/-- Embedding of `loadNameservers` (nameservers.go lines 26 to 55): classify
the user strings, and if no endpoint resulted, fall back to the system
defaults, adopting the system ndots exactly when the user ndots is zero and
the system search list exactly when it is non-empty and the user opted into
search-list use. -/
def loadNameservers (hub : Hub) (sys : SysOutcome) : Except (List Char) Hub :=
  match loadUserNameservers hub.nameservers hub.queryFlags.nameservers with
  | .error e => .error e
  | .ok nss =>
    let hub1 := { hub with nameservers := nss }
    if hub1.nameservers == [] then
      match getDefaultServers sys with
      | .error _ => .error ((("error fetching system default nameserver").toList))
      | .ok (ns, ndots, search) =>
        let hub2 := if hub1.queryFlags.ndots == (0 : Int) then
            { hub1 with resolverOpts := { hub1.resolverOpts with ndots := ndots } }
          else hub1
        let hub3 := if search != [] && hub2.queryFlags.useSearchList then
            { hub2 with resolverOpts := { hub2.resolverOpts with searchList := search } }
          else hub2
        .ok { hub3 with nameservers := hub3.nameservers ++ ns }
    else .ok hub1

/-! ### Spec-side definitions

The following definitions restate, in the spec's own words, what the Response
Normalizer and the Message Builder are claimed to produce; the claim theorems
compare them against the embedded code. -/

/-- Definition following the spec's rendering table (section 4.5): the
protocol-specific address string, empty for unsupported or unlisted record
types. -/
def specAnswerAddress : DnsRR → List Char
  | .a _ ipText => ipText
  | .aaaa _ ipText => ipText
  | .cname _ target => target
  | .caa _ tag value => tag ++ [(' ')] ++ value
  | .hinfo _ cpu os => cpu ++ [(' ')] ++ os
  | .ptr _ ptrName => ptrName
  | .srv _ priority weight port target =>
    natToStr priority ++ [(' ')] ++ natToStr weight ++ [(' ')]
      ++ target ++ [(':')] ++ natToStr port
  | .txt _ native => native
  | .ns _ nsName => nsName
  | .mx _ preference mxName => natToStr preference ++ [(' ')] ++ mxName
  | .soa _ _ _ _ _ _ _ _ native => native
  | .naptr _ native => native
  | .over _ => []

/-- Definition following the spec (section 4.5): the Answer emitted for one
answer record, with the common fields, the rendered address, the TTL seconds
suffixed with the letter s, and the round-trip milliseconds suffixed with
ms. -/
def specAnswerOf (rttMs : Int) (server : List Char) (rr : DnsRR) : Answer :=
  { name := rr.header.name
    rtype := typeToString rr.header.rrtype
    ttl := natToStr rr.header.ttl ++ [('s')]
    rclass := classToString rr.header.rrClass
    address := specAnswerAddress rr
    rtt := intToStr rttMs ++ (("ms").toList)
    nameserver := server }

/-- Definition following the spec (section 4.5): an Authority entry exactly
for SOA records, whose mname is the space-joined composite of the seven SOA
fields with numeric fields in base 10, and whose status is the textual
rendering of the overall response code; any other record yields no entry. -/
def specAuthorityOf (rcode : Nat) (rttMs : Int) (server : List Char) (rr : DnsRR) :
    Option Authority :=
  match rr with
  | .soa hdr nsName mbox serial refresh retry expire minttl _ =>
    some
      { name := hdr.name
        rtype := typeToString hdr.rrtype
        ttl := natToStr hdr.ttl ++ [('s')]
        rclass := classToString hdr.rrClass
        mname := List.intercalate [(' ')]
          [nsName, mbox, natToStr serial, natToStr refresh, natToStr retry,
           natToStr expire, natToStr minttl]
        nameserver := server
        rtt := intToStr rttMs ++ (("ms").toList)
        status := rcodeToString rcode }
  | _ => none

/-- Index-decorated list, counting from a start index: the spec-side shape of
the Message Builder loop (the i-th candidate name is paired with index i). -/
def enumFrom {α : Type} : Nat → List α → List (Nat × α)
  | _, [] => []
  | i, a :: rest => (i, a) :: enumFrom (i + 1) rest

/-- Definition following the spec (section 4.4): the one message built for a
candidate name, with the given transaction id draw, recursion desired, and a
single question carrying the candidate name and the original qtype and
qclass. -/
def specMessageOf (q : DnsQuestion) (idDraw : Nat) (qName : List Char) : DnsMsg :=
  { id := idDraw
    recursionDesired := true
    question := [{ name := qName, qtype := q.qtype, qclass := q.qclass }]
    answer := []
    nsSection := []
    rcode := 0 }

/-- Decidable equality on `Except`, used to evaluate the loader on concrete
inputs. -/
instance exceptDecEq {ε α : Type} [DecidableEq ε] [DecidableEq α] :
    DecidableEq (Except ε α)
  | .error e, .error f =>
    if h : e = f then .isTrue (by rw [h]) else .isFalse (fun hh => h (by cases hh; rfl))
  | .error _, .ok _ => .isFalse (fun hh => Except.noConfusion hh)
  | .ok _, .error _ => .isFalse (fun hh => Except.noConfusion hh)
  | .ok a, .ok b =>
    if h : a = b then .isTrue (by rw [h]) else .isFalse (fun hh => h (by cases hh; rfl))

/-! ### Helper lemmas -/

theorem foldl_append_map {α β : Type} (f : α → β) :
    ∀ (l : List α) (acc : List β),
      l.foldl (fun ns s => ns ++ [f s]) acc = acc ++ l.map f := by
  intro l
  induction l with
  | nil => simp
  | cons a l ih => intro acc; simp [ih]

theorem intercalate_seven (sep a b c d e f g : List Char) :
    List.intercalate sep [a, b, c, d, e, f, g]
      = a ++ sep ++ b ++ sep ++ c ++ sep ++ d ++ sep ++ e ++ sep ++ f ++ sep ++ g := by
  simp [List.intercalate, List.intersperse, List.append_assoc]

theorem parseAnswerStep_eq (ms : Int) (server : List Char) (resp : Response) (rr : DnsRR) :
    parseAnswerStep (intToStr ms ++ (("ms").toList)) server resp rr
      = { resp with answers := resp.answers ++ [specAnswerOf ms server rr] } := by
  cases rr <;> simp [parseAnswerStep, specAnswerOf, specAnswerAddress, DnsRR.header]

theorem parseAuthorityStep_eq (rc : Nat) (ms : Int) (server : List Char)
    (resp : Response) (rr : DnsRR) :
    parseAuthorityStep rc (intToStr ms ++ (("ms").toList)) server resp rr
      = { resp with authorities :=
            resp.authorities ++ (specAuthorityOf rc ms server rr).toList } := by
  cases rr <;>
    simp [parseAuthorityStep, specAuthorityOf, intercalate_seven, List.append_assoc]

theorem foldl_answerStep (ms : Int) (server : List Char) :
    ∀ (l : List DnsRR) (resp : Response),
      l.foldl (parseAnswerStep (intToStr ms ++ (("ms").toList)) server) resp
        = { resp with answers := resp.answers ++ l.map (specAnswerOf ms server) } := by
  intro l
  induction l with
  | nil => intro resp; simp
  | cons rr l ih =>
    intro resp
    rw [List.foldl_cons, parseAnswerStep_eq, ih]
    simp [List.append_assoc]

theorem foldl_authorityStep (rc : Nat) (ms : Int) (server : List Char) :
    ∀ (l : List DnsRR) (resp : Response),
      l.foldl (parseAuthorityStep rc (intToStr ms ++ (("ms").toList)) server) resp
        = { resp with authorities :=
              resp.authorities ++ l.filterMap (specAuthorityOf rc ms server) } := by
  intro l
  induction l with
  | nil => intro resp; simp
  | cons rr l ih =>
    intro resp
    rw [List.foldl_cons, parseAuthorityStep_eq, ih, List.filterMap_cons]
    cases h : specAuthorityOf rc ms server rr <;> simp [List.append_assoc]

/-- The normalized response is, section by section, the spec-side map over the
answer records and the spec-side filter-map over the authority records. -/
theorem parseMessage_eq (msg : DnsMsg) (rttNs : Int) (server : List Char) :
    parseMessage msg rttNs server =
      { answers := msg.answer.map (specAnswerOf (durationMilliseconds rttNs) server)
        authorities := msg.nsSection.filterMap
          (specAuthorityOf msg.rcode (durationMilliseconds rttNs) server) } := by
  show msg.answer.foldl
      (parseAnswerStep (intToStr (durationMilliseconds rttNs) ++ (("ms").toList)) server)
      (msg.nsSection.foldl
        (parseAuthorityStep msg.rcode
          (intToStr (durationMilliseconds rttNs) ++ (("ms").toList)) server)
        ⟨[], []⟩) = _
  rw [foldl_authorityStep, foldl_answerStep]
  simp

theorem prepareLoop (q : DnsQuestion) (ids : Nat → Nat) :
    ∀ (l : List (List Char)) (i : Nat) (acc : List DnsMsg),
      l.foldl (fun acc qName => (acc.1 + 1, acc.2 ++ [specMessageOf q (ids acc.1) qName]))
          (i, acc)
        = (i + l.length,
           acc ++ (enumFrom i l).map (fun p => specMessageOf q (ids p.1) p.2)) := by
  intro l
  induction l with
  | nil => intro i acc; simp [enumFrom]
  | cons a l ih =>
    intro i acc
    rw [List.foldl_cons]
    show l.foldl _ (i + 1, acc ++ [specMessageOf q (ids i) a]) = _
    rw [ih]
    simp [enumFrom, List.append_assoc]
    omega

/-! ### Claims -/

/-- C1: for every non-fully-qualified name, every ndots and every search list,
the Query Name Expander returns the bare fully-qualified name first followed
by one fully-qualified name-plus-suffix entry per search-list suffix in list
order when the label count of the name strictly exceeds ndots, and otherwise
the name-plus-suffix entries first in list order with the bare fully-qualified
name last; in particular the result is never empty. -/
theorem c1_expander_order (name : List Char) (ndots : Int) (searchList : List (List Char))
    (h : dnsIsFqdn name = false) :
    constructPossibleQuestions name ndots searchList =
      (if (dnsCountLabel name : Int) > ndots then
        dnsFqdn name :: searchList.map (fun s => dnsFqdn (dnsFqdn name ++ s))
      else
        searchList.map (fun s => dnsFqdn (dnsFqdn name ++ s)) ++ [dnsFqdn name]) ∧
    constructPossibleQuestions name ndots searchList ≠ [] := by
  have hmain : constructPossibleQuestions name ndots searchList =
      (if (dnsCountLabel name : Int) > ndots then
        dnsFqdn name :: searchList.map (fun s => dnsFqdn (dnsFqdn name ++ s))
      else
        searchList.map (fun s => dnsFqdn (dnsFqdn name ++ s)) ++ [dnsFqdn name]) := by
    simp only [constructPossibleQuestions, h, Bool.false_eq_true, if_false,
      foldl_append_map]
    by_cases hc : (dnsCountLabel name : Int) > ndots
    · simp [hc]
    · simp [hc]
  refine ⟨hmain, ?_⟩
  rw [hmain]
  by_cases hc : (dnsCountLabel name : Int) > ndots
  · simp [hc]
  · simp [hc]

/-- Witness for C1 at the spec's own example: the name host with ndots 1 and
search list corp.local has one label, not more than one, so the suffixed
entry comes first and the bare name last. -/
theorem c1_expander_order_witness :
    dnsIsFqdn (("host").toList) = false ∧
    constructPossibleQuestions (("host").toList) 1 [(("corp.local").toList)] =
      (if (dnsCountLabel (("host").toList) : Int) > 1 then
        dnsFqdn (("host").toList) ::
          [(("corp.local").toList)].map (fun s => dnsFqdn (dnsFqdn (("host").toList) ++ s))
      else
        [(("corp.local").toList)].map (fun s => dnsFqdn (dnsFqdn (("host").toList) ++ s)) ++
          [dnsFqdn (("host").toList)]) ∧
    constructPossibleQuestions (("host").toList) 1 [(("corp.local").toList)] ≠ [] :=
  ⟨by decide,
   (c1_expander_order (("host").toList) 1 [(("corp.local").toList)] (by decide)).1,
   (c1_expander_order (("host").toList) 1 [(("corp.local").toList)] (by decide)).2⟩

/-- C8: a name that is already fully qualified is returned alone and
unchanged, for every ndots and every search list. -/
theorem c8_fqdn_unchanged (name : List Char) (ndots : Int) (searchList : List (List Char))
    (h : dnsIsFqdn name = true) :
    constructPossibleQuestions name ndots searchList = [name] := by
  simp [constructPossibleQuestions, h]

/-- Witness for C8 at the spec's own example: example.com. with ndots 2 and a
search list is returned alone. -/
theorem c8_fqdn_unchanged_witness :
    dnsIsFqdn (("example.com.").toList) = true ∧
    constructPossibleQuestions (("example.com.").toList) 2 [(("corp.local").toList)] =
      [(("example.com.").toList)] :=
  ⟨by decide, c8_fqdn_unchanged (("example.com.").toList) 2 [(("corp.local").toList)] (by decide)⟩

/-- C4: the Response Normalizer emits an Authority entry exactly for the SOA
records of the authority section, each with mname the space-joined composite
of the SOA nameserver, mailbox, serial, refresh, retry, expire and minimum-TTL
fields in base 10, and status the textual rendering of the response's overall
result code. -/
theorem c4_authority_soa_normalization (msg : DnsMsg) (rttNs : Int) (server : List Char) :
    (parseMessage msg rttNs server).authorities =
      msg.nsSection.filterMap
        (specAuthorityOf msg.rcode (durationMilliseconds rttNs) server) := by
  rw [parseMessage_eq]

/-- C5: the Response Normalizer emits exactly one Answer per answer record in
response order and never fails; record types outside the rendering table get
an empty address string, and every record carries the TTL seconds suffixed
with s and the round-trip milliseconds suffixed with ms. -/
theorem c5_answer_normalization (msg : DnsMsg) (rttNs : Int) (server : List Char) :
    (parseMessage msg rttNs server).answers =
      msg.answer.map (specAnswerOf (durationMilliseconds rttNs) server) := by
  rw [parseMessage_eq]

/-- C9 counterexample: with the question host, ndots 1 and a search list
holding the empty suffix, the expansion yields the candidate host. twice, and
with an id source that draws zero the built messages neither carry pairwise
distinct question names nor non-zero transaction ids. -/
theorem c9_builder_cex :
    (prepareMessages ⟨(("host").toList), 1, 1⟩ 1 [[]] (fun _ => 0)).map
        (fun m => (m.id, m.question.map DnsQuestion.name)) =
      [(0, [(("host.").toList)]), (0, [(("host.").toList)])] ∧
    ¬ ((prepareMessages ⟨(("host").toList), 1, 1⟩ 1 [[]] (fun _ => 0)).Pairwise
          (fun m1 m2 => m1.question.map DnsQuestion.name ≠ m2.question.map DnsQuestion.name) ∧
        ∀ m ∈ prepareMessages ⟨(("host").toList), 1, 1⟩ 1 [[]] (fun _ => 0), m.id ≠ 0) := by
  decide

/-- C9 as amended: the Message Builder produces exactly one message per
candidate name in sequence order, each with recursion desired, a single
question carrying that candidate name and the original qtype and qclass, and
the transaction id equal to the id source's fresh draw at that message's
index; ids can be zero and question names can repeat when the source draws
zero or the expansion yields duplicate candidates. -/
theorem c9_amended_builder (q : DnsQuestion) (ndots : Int) (searchList : List (List Char))
    (ids : Nat → Nat) :
    prepareMessages q ndots searchList ids
      = (enumFrom 0 (constructPossibleQuestions q.name ndots searchList)).map
          (fun p => specMessageOf q (ids p.1) p.2) := by
  show (List.foldl
      (fun acc qName => (acc.1 + 1, acc.2 ++ [specMessageOf q (ids acc.1) qName]))
      (0, []) (constructPossibleQuestions q.name ndots searchList)).2 = _
  rw [prepareLoop]
  simp

/-! ### Helper lemmas for the nameserver loader -/

theorem joinHostPort_ne_nil (host port : List Char) : joinHostPort host port ≠ [] := by
  unfold joinHostPort
  split <;> simp

theorem urlString_ne_nil (u : GoURL) (h : u.scheme ≠ []) : urlString u ≠ [] := by
  have hb : (u.scheme != ([] : List Char)) = true := bne_iff_ne.mpr h
  simp [urlString, hb]

theorem initNameserver_ne_nil (n : List Char) :
    (initNameserver n).1.nsType ≠ [] ∧ (initNameserver n).1.address ≠ [] := by
  unfold initNameserver
  cases hp : urlParseGo n with
  | error e =>
    refine ⟨?_, ?_⟩
    · simp [UDPResolver]
    · simpa using joinHostPort_ne_nil n DefaultUDPPort
  | ok u =>
    simp only []
    split_ifs with h1 h2 h3 h4 h5 h6 h7 <;>
      refine ⟨by simp [UDPResolver, TCPResolver, DOTResolver, DOHResolver], ?_⟩ <;>
      first
        | simpa using joinHostPort_ne_nil u.hostname DefaultUDPPort
        | simpa using joinHostPort_ne_nil u.hostname DefaultTCPPort
        | simpa using joinHostPort_ne_nil u.hostname DefaultTLSPort
        | simpa using joinHostPort_ne_nil u.hostname u.port
        | simpa using joinHostPort_ne_nil n DefaultUDPPort
        | simpa using urlString_ne_nil u
            (by rw [eq_of_beq ‹(u.scheme == ((("https").toList))) = true›]; decide)

/-- One-step unfolding of the user-nameserver loop on a cons cell. -/
theorem loadUser_cons (acc : List Nameserver) (srv : List Char) (rest : List (List Char)) :
    loadUserNameservers acc (srv :: rest) =
      match initNameserver srv with
      | (_, some _) => .error (((("error parsing nameserver: ").toList)) ++ srv)
      | (ns, none) =>
        loadUserNameservers
          (if ns.address != [] && ns.nsType != [] then acc ++ [ns] else acc) rest := rfl

theorem loadUser_nil (acc : List Nameserver) : loadUserNameservers acc [] = .ok acc := rfl

theorem loadUser_error (srv : List Char) (hsrv : (initNameserver srv).2.isSome = true) :
    ∀ (pre post : List (List Char)) (acc : List Nameserver),
      (∀ x ∈ pre, (initNameserver x).2 = none) →
      loadUserNameservers acc (pre ++ srv :: post)
        = .error (((("error parsing nameserver: ").toList)) ++ srv) := by
  intro pre
  induction pre with
  | nil =>
    intro post acc _
    rw [List.nil_append, loadUser_cons]
    rcases h : initNameserver srv with ⟨ns, o⟩
    cases o with
    | none => rw [h] at hsrv; simp at hsrv
    | some e => rfl
  | cons x pre ih =>
    intro post acc hpre
    have hx := hpre x (by simp)
    rw [List.cons_append, loadUser_cons]
    rcases h : initNameserver x with ⟨ns, o⟩
    rw [h] at hx
    simp only at hx
    subst hx
    exact ih post _ (fun y hy => hpre y (by simp [hy]))

theorem loadUser_ok_length :
    ∀ (strings : List (List Char)) (acc nss : List Nameserver),
      loadUserNameservers acc strings = .ok nss →
      nss.length = acc.length + strings.length := by
  intro strings
  induction strings with
  | nil =>
    intro acc nss h
    rw [loadUser_nil] at h
    cases h
    simp
  | cons srv rest ih =>
    intro acc nss h
    rw [loadUser_cons] at h
    rcases hi : initNameserver srv with ⟨ns, o⟩
    rw [hi] at h
    cases o with
    | some e => simp at h
    | none =>
      simp only at h
      have hfields := initNameserver_ne_nil srv
      rw [hi] at hfields
      have hcond : (ns.address != [] && ns.nsType != []) = true := by
        simp only [Bool.and_eq_true, bne_iff_ne]
        exact ⟨hfields.2, hfields.1⟩
      rw [hcond, if_pos rfl] at h
      have := ih _ _ h
      simp at this ⊢
      omega

/-- C2 counterexample: the string 8.8.8.8:53 fails URL parsing (colon in the
first path segment), and although the following string 9.9.9.9 is perfectly
parseable, the loader aborts the whole batch with an error instead of
rejecting only the failing string and continuing. -/
theorem c2_parse_error_aborts_cex :
    (initNameserver (("9.9.9.9").toList)).2 = none ∧
    loadNameservers
      { queryFlags := { nameservers := [(("8.8.8.8:53").toList), (("9.9.9.9").toList)]
                        ndots := 0, useSearchList := false }
        nameservers := []
        resolverOpts := { ndots := 0, searchList := [] } }
      (.ok ([(("5.5.5.5").toList)], 1, [])) =
      .error (((("error parsing nameserver: ").toList)) ++ (("8.8.8.8:53").toList)) := by
  decide

/-- C2 as amended: a nameserver string that fails to parse is fatal to the
batch: the loader returns an error naming the offending string and the
remaining nameserver strings are not processed. -/
theorem c2_amended_parse_error_fatal (hub : Hub) (sys : SysOutcome)
    (pre post : List (List Char)) (srv : List Char)
    (hstr : hub.queryFlags.nameservers = pre ++ srv :: post)
    (hpre : ∀ x ∈ pre, (initNameserver x).2 = none)
    (hsrv : (initNameserver srv).2.isSome = true) :
    loadNameservers hub sys
      = .error (((("error parsing nameserver: ").toList)) ++ srv) := by
  unfold loadNameservers
  rw [hstr, loadUser_error srv hsrv pre post hub.nameservers hpre]

/-- Witness for C2 as amended: with the well-formed string 9.9.9.9 before the
failing string 8.8.8.8:53, the loader errors naming the failing string. -/
theorem c2_amended_parse_error_fatal_witness :
    loadNameservers
      { queryFlags := { nameservers := [(("9.9.9.9").toList), (("8.8.8.8:53").toList)]
                        ndots := 0, useSearchList := false }
        nameservers := []
        resolverOpts := { ndots := 0, searchList := [] } }
      (.error ())
      = .error (((("error parsing nameserver: ").toList)) ++ (("8.8.8.8:53").toList)) :=
  c2_amended_parse_error_fatal _ _ [(("9.9.9.9").toList)] [] (("8.8.8.8:53").toList)
    rfl (by decide) (by decide)

/-- C3 counterexample: with no user-supplied nameserver strings and a System
Defaults Provider that succeeds with an empty address list, the loader
returns without error and with an empty endpoint list (the returned hub's
nameservers field is empty), contradicting the claimed guarantee. -/
theorem c3_empty_defaults_cex :
    loadNameservers
      { queryFlags := { nameservers := [], ndots := 0, useSearchList := false }
        nameservers := []
        resolverOpts := { ndots := 0, searchList := [] } }
      (.ok ([], 3, [(("corp.local").toList)])) =
      .ok { queryFlags := { nameservers := [], ndots := 0, useSearchList := false }
            nameservers := []
            resolverOpts := { ndots := 3, searchList := [] } } := by
  decide

/-- C3 as amended: when the loader returns without error, the endpoint list is
non-empty provided the System Defaults Provider never succeeds with an empty
address list; a successful provider outcome with zero addresses is the one
case in which the loader returns an empty endpoint list with no error. -/
theorem c3_amended_loader_nonempty (hub : Hub) (sys : SysOutcome) (hub2 : Hub)
    (hok : loadNameservers hub sys = .ok hub2)
    (hsys : ∀ servers ndots search, sys = .ok (servers, ndots, search) → servers ≠ []) :
    hub2.nameservers ≠ [] := by
  unfold loadNameservers at hok
  rcases hu : loadUserNameservers hub.nameservers hub.queryFlags.nameservers with e | nss
  · rw [hu] at hok; exact Except.noConfusion hok
  · rw [hu] at hok
    simp only at hok
    split at hok
    · next hcond =>
      rcases hs : sys with e | ⟨servers, nd, sl⟩
      · rw [hs] at hok
        simp only [getDefaultServers] at hok
        exact Except.noConfusion hok
      · rw [hs] at hok
        simp only [getDefaultServers, Except.ok.injEq] at hok
        rw [← hok]
        simp only
        intro hcontra
        rw [List.append_eq_nil] at hcontra
        exact hsys servers nd sl hs (List.map_eq_nil_iff.mp hcontra.2)
    · next hcond =>
      simp only [Except.ok.injEq] at hok
      rw [← hok]
      simpa using hcond

/-- Witness for C3 as amended: one parseable user string and a failing
provider give a returned hub whose endpoint list is non-empty. -/
theorem c3_amended_loader_nonempty_witness :
    ({ queryFlags := { nameservers := [(("1.1.1.1").toList)], ndots := 0, useSearchList := false }
       nameservers := [{ nsType := UDPResolver, address := (("1.1.1.1:53").toList) }]
       resolverOpts := { ndots := 0, searchList := [] } } : Hub).nameservers ≠ [] :=
  c3_amended_loader_nonempty
    { queryFlags := { nameservers := [(("1.1.1.1").toList)], ndots := 0, useSearchList := false }
      nameservers := []
      resolverOpts := { ndots := 0, searchList := [] } }
    (.error ()) _ (by decide) (fun _ _ _ h => Except.noConfusion h)

/-- C10: the Endpoint Classifier always returns an endpoint whose protocol
type and address are both non-empty, so the loader's defensive skip never
discards an endpoint: a successful pass over the user strings appends exactly
one endpoint per string. -/
theorem c10_classifier_always_usable :
    (∀ n, (initNameserver n).1.nsType ≠ [] ∧ (initNameserver n).1.address ≠ []) ∧
    (∀ (strings : List (List Char)) (acc nss : List Nameserver),
      loadUserNameservers acc strings = .ok nss →
      nss.length = acc.length + strings.length) :=
  ⟨initNameserver_ne_nil, loadUser_ok_length⟩

/-- Witness for C10: the single string 1.1.1.1 is classified and appended, the
result holding one more endpoint than the initial accumulator. -/
theorem c10_classifier_always_usable_witness :
    loadUserNameservers [] [(("1.1.1.1").toList)] =
      .ok [{ nsType := UDPResolver, address := (("1.1.1.1:53").toList) }] ∧
    ([{ nsType := UDPResolver, address := (("1.1.1.1:53").toList) }] : List Nameserver).length =
      ([] : List Nameserver).length + ([(("1.1.1.1").toList)]).length :=
  ⟨by decide,
   c10_classifier_always_usable.2 [(("1.1.1.1").toList)] [] _ (by decide)⟩

/-- C6 counterexample: two inputs whose parsed scheme is https but whose
resulting doh address is not the input string verbatim: a trailing empty
fragment is dropped by re-serialization, and an uppercase scheme is
lowercased. -/
theorem c6_https_not_verbatim_cex :
    (initNameserver (("https://dns.google#").toList)).1 =
      { nsType := DOHResolver, address := (("https://dns.google").toList) } ∧
    (initNameserver (("HTTPS://dns.google").toList)).1 =
      { nsType := DOHResolver, address := (("https://dns.google").toList) } ∧
    (("https://dns.google").toList) ≠ (("https://dns.google#").toList) ∧
    (("https://dns.google").toList) ≠ (("HTTPS://dns.google").toList) := by
  decide

/-- C6 as amended: on a successfully parsed input the classifier maps no
scheme to udp with the whole input joined to port 53, scheme tls to dot and
schemes tcp and udp to themselves with the parsed host joined to the explicit
port or the protocol default (853 for tls, 53 for tcp and udp), and scheme
https to doh with the re-serialization of the parsed URL as address, which
equals the input for normalized https URLs such as the spec's example but can
differ from it; the four spec examples classify as stated. -/
theorem c6_amended_classifier :
    (∀ n u, urlParseGo n = .ok u →
      (u.scheme = [] →
        initNameserver n =
          ({ nsType := UDPResolver, address := joinHostPort n DefaultUDPPort }, none)) ∧
      (u.scheme = (("tls").toList) →
        initNameserver n =
          ({ nsType := DOTResolver
             address := joinHostPort u.hostname
               (if u.port = [] then DefaultTLSPort else u.port) }, none)) ∧
      (u.scheme = (("tcp").toList) →
        initNameserver n =
          ({ nsType := TCPResolver
             address := joinHostPort u.hostname
               (if u.port = [] then DefaultTCPPort else u.port) }, none)) ∧
      (u.scheme = (("udp").toList) →
        initNameserver n =
          ({ nsType := UDPResolver
             address := joinHostPort u.hostname
               (if u.port = [] then DefaultUDPPort else u.port) }, none)) ∧
      (u.scheme = (("https").toList) →
        initNameserver n = ({ nsType := DOHResolver, address := urlString u }, none))) ∧
    (initNameserver (("8.8.8.8").toList)).1 =
      { nsType := UDPResolver, address := (("8.8.8.8:53").toList) } ∧
    (initNameserver (("tls://1.1.1.1").toList)).1 =
      { nsType := DOTResolver, address := (("1.1.1.1:853").toList) } ∧
    (initNameserver (("tcp://9.9.9.9:5353").toList)).1 =
      { nsType := TCPResolver, address := (("9.9.9.9:5353").toList) } ∧
    (initNameserver (("https://dns.google/dns-query").toList)).1 =
      { nsType := DOHResolver, address := (("https://dns.google/dns-query").toList) } := by
  refine ⟨?_, by decide, by decide, by decide, by decide⟩
  intro n u h
  unfold initNameserver
  rw [h]
  simp only
  refine ⟨?_, ?_, ?_, ?_, ?_⟩ <;> intro hs <;> rw [hs]
  · rw [if_neg (by decide), if_neg (by decide), if_neg (by decide), if_neg (by decide)]
  · rw [if_neg (by decide), if_neg (by decide), if_pos (by decide)]
    by_cases hp : u.port = [] <;> simp [hp]
  · rw [if_neg (by decide), if_pos (by decide)]
    by_cases hp : u.port = [] <;> simp [hp]
  · rw [if_pos (by decide)]
    by_cases hp : u.port = [] <;> simp [hp]
  · rw [if_neg (by decide), if_neg (by decide), if_neg (by decide), if_pos (by decide)]

/-- Witness for C6 as amended: instantiating the tls clause at the spec's
example tls://1.1.1.1 (whose parse has host 1.1.1.1 and no port). -/
theorem c6_amended_classifier_witness :
    initNameserver (("tls://1.1.1.1").toList) =
      ({ nsType := DOTResolver
         address := joinHostPort
           ({ GoURL.empty with
              scheme := (("tls").toList), host := (("1.1.1.1").toList) } : GoURL).hostname
           (if ({ GoURL.empty with
                  scheme := (("tls").toList), host := (("1.1.1.1").toList) } : GoURL).port = []
            then DefaultTLSPort
            else ({ GoURL.empty with
                    scheme := (("tls").toList), host := (("1.1.1.1").toList) } : GoURL).port) },
       none) :=
  (c6_amended_classifier.1 (("tls://1.1.1.1").toList)
      { GoURL.empty with scheme := (("tls").toList), host := (("1.1.1.1").toList) }
      (by decide)).2.1 (by decide)

/-- C7: option reconciliation happens only in the fallback branch: when the
user strings yield at least one endpoint the hub's resolver options are left
unchanged, and in the fallback the system ndots is adopted exactly when the
user ndots was zero while the system search list is adopted exactly when it
is non-empty and the user opted into search-list use. -/
theorem c7_option_reconciliation (hub : Hub) (sys : SysOutcome) (nss : List Nameserver)
    (huser : loadUserNameservers hub.nameservers hub.queryFlags.nameservers = .ok nss) :
    (nss ≠ [] → loadNameservers hub sys = .ok { hub with nameservers := nss }) ∧
    (nss = [] → ∀ servers ndots search, sys = .ok (servers, ndots, search) →
      loadNameservers hub sys = .ok
        { queryFlags := hub.queryFlags
          nameservers := servers.map (fun s =>
            { nsType := UDPResolver, address := joinHostPort s DefaultUDPPort })
          resolverOpts :=
            { ndots := if hub.queryFlags.ndots = 0 then ndots else hub.resolverOpts.ndots
              searchList := if search ≠ [] ∧ hub.queryFlags.useSearchList then search
                            else hub.resolverOpts.searchList } }) := by
  constructor
  · intro hne
    unfold loadNameservers
    rw [huser]
    simp only
    rw [if_neg (by simpa using hne)]
  · intro hemp servers nd sl hs
    subst hemp
    unfold loadNameservers
    rw [huser, hs]
    simp only [getDefaultServers]
    rw [if_pos (by simp)]
    by_cases hd : hub.queryFlags.ndots = 0 <;>
      by_cases h1 : sl = [] <;>
        by_cases h2 : hub.queryFlags.useSearchList <;>
          simp [hd, h1, h2]

/-- Witness for C7: with no user strings, user ndots zero and search-list use
opted in, the fallback adopts the system ndots 5 and the system search list,
replacing the previous option values. -/
theorem c7_option_reconciliation_witness :
    loadNameservers
      { queryFlags := { nameservers := [], ndots := 0, useSearchList := true }
        nameservers := []
        resolverOpts := { ndots := 7, searchList := [(("old.suffix").toList)] } }
      (.ok ([(("1.1.1.1").toList)], 5, [(("corp.local").toList)])) =
      .ok { queryFlags := { nameservers := [], ndots := 0, useSearchList := true }
            nameservers := [(("1.1.1.1").toList)].map (fun s =>
              { nsType := UDPResolver, address := joinHostPort s DefaultUDPPort })
            resolverOpts :=
              { ndots := if (0 : Int) = 0 then 5 else 7
                searchList :=
                  if [(("corp.local").toList)] ≠ [] ∧ True then [(("corp.local").toList)]
                  else [(("old.suffix").toList)] } } :=
  (c7_option_reconciliation
      { queryFlags := { nameservers := [], ndots := 0, useSearchList := true }
        nameservers := []
        resolverOpts := { ndots := 7, searchList := [(("old.suffix").toList)] } }
      (.ok ([(("1.1.1.1").toList)], 5, [(("corp.local").toList)])) [] (by decide)).2
    rfl [(("1.1.1.1").toList)] 5 [(("corp.local").toList)] rfl

end Doggo
